import Mathlib

/-!
Verification of the command-pipeline front-end of a small interactive shell
(`src/main.rs`).  The development shallowly embeds the lexer (`arg_parse`),
the per-segment redirection scan inside `run_command`, and the executor
(`run_single_command`, `execute_piped`, `handle_built_in_output`,
`change_directory`) as pure Lean functions.  Observable I/O is modelled as a
trace of events; operating-system behaviour that the code consults (PATH
resolution, HOME, directory existence, file-open success, spawn success) is
a record of oracle functions, and the shell's working directory is explicit
state.  Text of OS error values interpolated into diagnostics (the `{e}` in
`eprintln!` calls) is elided from the modelled messages; fallible writes to
already-opened files are modelled as succeeding.
-/

/-- The exact set of characters for which the Rust `char::is_whitespace`
(Unicode `White_Space`) returns true. -/
def rustWhitespaceList : List Char :=
  ['\x09', '\x0a', '\x0b', '\x0c', '\x0d', ' ', '\u0085', ' ',
   ' ', ' ', ' ', ' ', ' ', ' ', ' ',
   ' ', ' ', ' ', ' ', ' ', ' ', ' ',
   ' ', ' ', '　']

/-- Embedding of Rust `char::is_whitespace`. -/
def rustIsWhitespace (c : Char) : Bool :=
  decide (c ∈ rustWhitespaceList)

/-- Embedding of Rust `str::trim` on a character list: drop
`char::is_whitespace` characters from both ends. -/
def rustTrim (l : List Char) : List Char :=
  ((l.dropWhile rustIsWhitespace).reverse.dropWhile rustIsWhitespace).reverse

/-- `str::trim` lifted to `String`. -/
def rustTrimStr (s : String) : String :=
  String.mk (rustTrim s.data)

/-- State of the quoting scan in `arg_parse`: the words emitted so far
(`args`), the word under construction (`current_arg`), the active quote
character if any (`quote_char`), and the pending-escape flag (`escaped`). -/
structure LexState where
  args : List String
  current : List Char
  quote : Option Char
  escaped : Bool
deriving DecidableEq, Repr

/-- One iteration of the `for c in line.chars()` loop of `arg_parse`
(src/main.rs lines 270-321). -/
def argStep (st : LexState) (c : Char) : LexState :=
  if st.escaped then
    if st.quote = some '"' then
      if c = '"' ∨ c = '\\' then
        { st with current := st.current ++ [c], escaped := false }
      else
        { st with current := st.current ++ ['\\', c], escaped := false }
    else
      { st with current := st.current ++ [c], escaped := false }
  else if c = '\\' ∧ st.quote ≠ some '\'' then
    { st with escaped := true }
  else if c = '"' ∨ c = '\'' then
    match st.quote with
    | none => { st with quote := some c }
    | some q =>
      if q = c then { st with quote := none }
      else { st with current := st.current ++ [c] }
  else if rustIsWhitespace c ∧ st.quote = none then
    if st.current ≠ [] then
      { st with args := st.args ++ [String.mk st.current], current := [] }
    else
      st
  else
    { st with current := st.current ++ [c] }

/-- Embedding of `arg_parse` (src/main.rs lines 264-328): run the quoting
state machine over the line, then flush a final non-empty word. -/
def arg_parse (line : String) : List String :=
  let st := line.data.foldl argStep ⟨[], [], none, false⟩
  if st.current ≠ [] then st.args ++ [String.mk st.current] else st.args

/-- Embedding of `input.split('|')` from `run_command` (src/main.rs line
332): split a character list at every `|`, with no quote awareness. -/
def splitPipe : List Char → List (List Char)
  | [] => [[]]
  | c :: rest =>
    if c = '|' then
      [] :: splitPipe rest
    else
      match splitPipe rest with
      | s :: ss => (c :: s) :: ss
      | [] => [[c]]

/-- The segments `run_command` iterates over, as strings. -/
def pipeSegments (input : String) : List String :=
  (splitPipe input.data).map String.mk

/-- Rejoin split segments with `|`; used to state that `splitPipe` is a
plain byte-level split. -/
def joinPipe : List (List Char) → List Char
  | [] => []
  | [s] => s
  | s :: ss => s ++ '|' :: joinPipe ss

/-- Boolean check that a segment contains no `|` character. -/
def noPipe : List Char → Bool
  | [] => true
  | c :: rest => if c = '|' then false else noPipe rest

/-- Embedding of Rust `str::parse::<i32>()`: optional sign, at least one
digit, all digits, value within the i32 range. -/
def parseI32 (s : String) : Option Int :=
  let p : Int × List Char :=
    match s.data with
    | '+' :: rest => (1, rest)
    | '-' :: rest => (-1, rest)
    | cs => (1, cs)
  if p.2 = [] then none
  else if p.2.all Char.isDigit then
    let n : Nat := p.2.foldl (fun a c => a * 10 + (c.toNat - 48)) 0
    let v : Int := p.1 * (n : Int)
    if -(2 ^ 31) ≤ v ∧ v ≤ 2 ^ 31 - 1 then some v else none
  else none

/-- Destination of a child process descriptor or built-in sink. -/
inductive IODest where
  | inherit
  | piped
  | file (path : String) (append : Bool)
deriving DecidableEq, Repr

/-- Observable actions of one `run_command` evaluation.  `out`/`err` are
`println!`/`eprintln!` to the shell's own stdout/stderr; `writeFile` is a
`writeln!` of one line into an opened redirection file; `spawn` records a
child process started with the given argv and descriptor dispositions
(`stdinPiped` true when the previous stage's pipe was wired to its stdin);
`wait` records a blocking `child.wait()`. -/
inductive Event where
  | out (s : String)
  | err (s : String)
  | writeFile (path : String) (append : Bool) (line : String)
  | spawn (cmd : String) (args : List String) (stdinPiped : Bool)
      (stdoutDest : IODest) (stderrDest : IODest)
  | wait (cmd : String)
deriving DecidableEq, Repr

/-- Oracles for the operating-system facts the code consults:
`resolve` is `find_executable_in_path`, `home` is `env::var("HOME")`,
`dirOk` is whether `env::set_current_dir` succeeds on a path, `openOk` is
whether `OpenOptions::open` succeeds on a path, `spawnOk` is whether
`Command::spawn` succeeds for a command. -/
structure Env where
  resolve : String → Option String
  home : Option String
  dirOk : String → Bool
  openOk : String → Bool
  spawnOk : String → Bool

/-- Shell-process state: the current working directory as reported by
`env::current_dir()` (`none` when that call fails).  Directory paths are
kept abstract: a successful `cd` stores the target string. -/
structure ShellState where
  cwd : Option String
deriving DecidableEq, Repr

/-- Outcome of one stage: either control returns to the segment loop with a
possible pipe handle and updated state, or the whole process terminated via
`std::process::exit`. -/
inductive CmdResult where
  | normal (pipeOut : Bool) (st : ShellState) (trace : List Event)
  | exited (code : Int) (trace : List Event)
deriving DecidableEq, Repr

/-- The event trace of a stage result. -/
def CmdResult.trace : CmdResult → List Event
  | .normal _ _ tr => tr
  | .exited _ tr => tr

/-- Outcome of a whole `run_command` evaluation. -/
inductive RunResult where
  | normal (st : ShellState) (trace : List Event)
  | exited (code : Int) (trace : List Event)
deriving DecidableEq, Repr

/-- Embedding of `handle_built_in_output` (src/main.rs lines 130-178):
write the stdout string to the redirection file (truncate when the append
flag is off) or to stdout, then the stderr string likewise; empty strings
produce no write at all. -/
def handle_built_in_output (env : Env) (std_out_s : String)
    (std_out : Option String) (std_out_append : Bool) (std_err_s : String)
    (std_err : Option String) (std_err_append : Bool) : List Event :=
  (match std_out with
   | some fp =>
     if env.openOk fp then
       if std_out_s ≠ "" then [Event.writeFile fp std_out_append std_out_s]
       else []
     else [Event.err ("Error opening file " ++ fp)]
   | none =>
     if std_out_s ≠ "" then [Event.out std_out_s] else [])
  ++
  (match std_err with
   | some fp =>
     if env.openOk fp then
       if std_err_s ≠ "" then [Event.writeFile fp std_err_append std_err_s]
       else []
     else [Event.err ("Error opening file " ++ fp)]
   | none =>
     if std_err_s ≠ "" then [Event.err std_err_s] else [])

/-- Embedding of `change_directory` (src/main.rs lines 242-262): `~` goes
through HOME, failure of the directory change reports
`cd: <arg>: No such file or directory` with the original argument. -/
def change_directory (env : Env) (st : ShellState) (path : String) :
    ShellState × List Event :=
  if path = "~" then
    match env.home with
    | some home =>
      if env.dirOk home then ({ st with cwd := some home }, [])
      else (st, [Event.err ("cd: " ++ path ++ ": No such file or directory")])
    | none => (st, [Event.err "cd: HOME not set"])
  else
    if env.dirOk path then ({ st with cwd := some path }, [])
    else (st, [Event.err ("cd: " ++ path ++ ": No such file or directory")])

/-- Embedding of `execute_piped` (src/main.rs lines 538-633).  Returns
whether a pipe handle is passed on, plus the event trace.  Note the source
calls `stdin_pipe.take()` (line 558), which always leaves `None` in the
local option, so the later `stdin_pipe.is_none()` test (line 618) is always
true; `stdin_after_take` records this. -/
def execute_piped (env : Env) (command : String) (args : List String)
    (stdin_pipe : Bool) (std_out : Option String) (std_out_append : Bool)
    (std_err : Option String) (std_err_append : Bool) (create_pipe : Bool) :
    Bool × List Event :=
  if (env.resolve command).isNone then
    (false, [Event.out (command ++ ": command not found")])
  else
    let stdin_after_take : Option Unit := none
    let stdoutRes : Option IODest :=
      if create_pipe then some .piped
      else
        match std_out with
        | some f =>
          if env.openOk f then some (.file f std_out_append) else none
        | none => some .inherit
    match stdoutRes with
    | none => (false, [Event.err "Failed to open error file"])
    | some outDest =>
      let stderrRes : Option IODest :=
        match std_err with
        | some f =>
          if env.openOk f then some (.file f std_err_append) else none
        | none => some .inherit
      match stderrRes with
      | none => (false, [Event.err "Failed to open error file"])
      | some errDest =>
        if env.spawnOk command then
          (create_pipe,
           Event.spawn command args stdin_pipe outDest errDest ::
             (if ¬create_pipe ∧ stdin_after_take.isNone then
               [Event.wait command]
             else []))
        else
          (false, [Event.err ("Failed to execute " ++ command)])

/-- Embedding of `run_single_command` (src/main.rs lines 413-535).  The
caller guarantees a non-empty `command_args` (it returns early on an empty
word list), so indexing `command_args[0]` is modelled with `headD`. -/
def run_single_command (env : Env) (st : ShellState)
    (command_args : List String) (stdin_pipe : Bool)
    (std_out_file : Option String) (std_out_r_append : Bool)
    (std_err_file : Option String) (std_err_r_append : Bool)
    (is_last : Bool) : CmdResult :=
  let command := command_args.headD ""
  let parts := command_args.tail
  if command = "echo" ∨ command = "pwd" ∨ command = "type" then
    if ¬is_last then
      .normal false st
        [Event.err ("Built-in command '" ++ command ++
          "' in a pipe: Not supported.")]
    else if command = "echo" then
      .normal false st
        (handle_built_in_output env (String.intercalate " " parts)
          std_out_file std_out_r_append "" std_err_file std_err_r_append)
    else if command = "pwd" then
      match st.cwd with
      | some d =>
        .normal false st
          (handle_built_in_output env d std_out_file std_out_r_append ""
            std_err_file std_err_r_append)
      | none =>
        .normal false st
          (handle_built_in_output env "" std_out_file std_out_r_append
            "Failed to get current directory" std_err_file std_err_r_append)
    else
      match parts.head? with
      | some arg =>
        if arg = "echo" ∨ arg = "exit" ∨ arg = "type" ∨ arg = "pwd" ∨
            arg = "cd" then
          .normal false st
            (handle_built_in_output env (arg ++ " is a shell builtin")
              std_out_file std_out_r_append "" std_err_file std_err_r_append)
        else
          match env.resolve arg with
          | some p =>
            .normal false st
              (handle_built_in_output env (arg ++ " is " ++ p) std_out_file
                std_out_r_append "" std_err_file std_err_r_append)
          | none =>
            .normal false st
              (handle_built_in_output env "" std_out_file std_out_r_append
                (arg ++ " not found") std_err_file std_err_r_append)
      | none => .normal false st []
  else if command = "exit" ∨ command = "cd" then
    if stdin_pipe then
      .normal false st []
    else if command = "cd" then
      match parts.head? with
      | some arg =>
        let r := change_directory env st arg
        .normal false r.1 r.2
      | none => .normal false st []
    else
      match parts.head? with
      | some arg =>
        match parseI32 arg with
        | some code => .exited code []
        | none => .exited 1 []
      | none => .exited 0 []
  else
    let r := execute_piped env command parts stdin_pipe std_out_file
      std_out_r_append std_err_file std_err_r_append (¬is_last)
    .normal r.1 st r.2

/-- Result of the redirection scan inside `run_command` (src/main.rs lines
343-385). -/
structure SegParse where
  command_args : List String
  std_out_file : Option String
  std_out_r_append : Bool
  std_err_file : Option String
  std_err_r_append : Bool
  error_in_parsing : Bool
deriving DecidableEq, Repr

/-- Initial scan state: no redirections, no argv, no error. -/
def initSeg : SegParse :=
  ⟨[], none, false, none, false, false⟩

/-- Embedding of the `while i < raw_args.len()` scan of `run_command`
(src/main.rs lines 353-385): only the words `>>`, `1>>`, `2>>` are tested
for; a recognized operator consumes the next word as target (append mode),
a missing target sets the error flag, every other word is pushed onto
`command_args`. -/
def scanArgs : List String → SegParse → SegParse
  | [], st => st
  | arg :: rest, st =>
    if arg = ">>" ∨ arg = "1>>" ∨ arg = "2>>" then
      match rest with
      | [] => { st with error_in_parsing := true }
      | target :: rest2 =>
        if arg = "2>>" then
          scanArgs rest2
            { st with std_err_r_append := true, std_err_file := some target }
        else
          scanArgs rest2
            { st with std_out_r_append := true, std_out_file := some target }
    else
      scanArgs rest { st with command_args := st.command_args ++ [arg] }

/-- The segment loop of `run_command` (src/main.rs lines 336-409): for each
segment, trim and lex it (an empty word list aborts the whole evaluation),
scan for redirections (a scan error or empty remaining argv prints the
parse diagnostic and aborts), then dispatch — note the source passes the
unfiltered `raw_args`, not `command_args`, to `run_single_command`
(line 399). -/
def run_segments (env : Env) : ShellState → Bool → List String → RunResult
  | st, _, [] => .normal st []
  | st, prev_output, seg :: rest =>
    let raw_args := arg_parse (rustTrimStr seg)
    if raw_args = [] then
      .normal st []
    else
      let p := scanArgs raw_args initSeg
      if p.error_in_parsing = true ∨ p.command_args = [] then
        .normal st [Event.out "error in parsing amk"]
      else
        let is_last := rest = []
        match run_single_command env st raw_args prev_output p.std_out_file
          p.std_out_r_append p.std_err_file p.std_err_r_append is_last with
        | .exited code tr => .exited code tr
        | .normal pipeOut st' tr =>
          match run_segments env st' pipeOut rest with
          | .exited code tr2 => .exited code (tr ++ tr2)
          | .normal st'' tr2 => .normal st'' (tr ++ tr2)

/-- Embedding of `run_command` (src/main.rs lines 330-410): split the raw
line on `|`, then run the segment loop with no initial pipe handle. -/
def run_command (env : Env) (st : ShellState) (input : String) : RunResult :=
  run_segments env st false (pipeSegments input)

/-- A concrete environment where nothing resolves on PATH, HOME is unset,
no directory change succeeds, and file opens and spawns succeed. -/
def env0 : Env :=
  { resolve := fun _ => none, home := none, dirOk := fun _ => false,
    openOk := fun _ => true, spawnOk := fun _ => true }

/-- A concrete environment where only `cat` and `ls` resolve. -/
def envCat : Env :=
  { resolve := fun s =>
      if s = "cat" then some "/bin/cat"
      else if s = "ls" then some "/bin/ls"
      else none,
    home := some "/home/user", dirOk := fun _ => true,
    openOk := fun _ => true, spawnOk := fun _ => true }

/-- A concrete shell state with a known working directory. -/
def st0 : ShellState :=
  { cwd := some "/home/user" }

/-- `argStep` only ever extends the emitted-word list with the current word,
and only when that word is non-empty. -/
theorem argStep_args_subset (st : LexState) (c : Char) (w : String)
    (hw : w ∈ (argStep st c).args) :
    w ∈ st.args ∨ (w = String.mk st.current ∧ st.current ≠ []) := by
  obtain ⟨a, cur, q, e⟩ := st
  simp only [argStep] at hw
  repeat' split at hw
  all_goals
    first
      | exact Or.inl hw
      | (rcases List.mem_append.mp hw with h | h
         · exact Or.inl h
         · exact Or.inr ⟨List.mem_singleton.mp h, by assumption⟩)

/-- A word built from a non-empty character list is not the empty string. -/
theorem mk_ne_empty_of_ne_nil (l : List Char) (h : l ≠ []) :
    String.mk l ≠ "" := by
  intro hc
  exact h (congrArg String.data hc)

/-- Folding `argStep` preserves the invariant that every emitted word is
non-empty. -/
theorem foldl_args_nonempty (l : List Char) (st : LexState)
    (h : ∀ w ∈ st.args, w ≠ "") :
    ∀ w ∈ (l.foldl argStep st).args, w ≠ "" := by
  induction l generalizing st with
  | nil => exact h
  | cons c rest ih =>
    intro w hw
    refine ih (argStep st c) ?_ w hw
    intro w' hw'
    rcases argStep_args_subset st c w' hw' with h' | ⟨h1, h2⟩
    · exact h w' h'
    · rw [h1]; exact mk_ne_empty_of_ne_nil _ h2

/-- A Unicode whitespace character is none of the three characters the
lexer treats specially. -/
theorem ws_not_special (c : Char) (hc : rustIsWhitespace c = true) :
    c ≠ '\\' ∧ c ≠ '"' ∧ c ≠ '\'' := by
  have hmem : c ∈ rustWhitespaceList := of_decide_eq_true hc
  simp only [rustWhitespaceList] at hmem
  fin_cases hmem <;> exact ⟨by decide, by decide, by decide⟩

/-- On a whitespace character, the lexer state with no pending word, no
quote and no escape is a fixed point of `argStep`. -/
theorem argStep_ws_fixed (a : List String) (c : Char)
    (hc : rustIsWhitespace c = true) :
    argStep ⟨a, [], none, false⟩ c = ⟨a, [], none, false⟩ := by
  obtain ⟨h1, h2, h3⟩ := ws_not_special c hc
  simp [argStep, h1, h2, h3, hc]

/-- Folding `argStep` over pure whitespace leaves the lexer state
unchanged. -/
theorem foldl_ws_fixed (l : List Char) (a : List String)
    (h : ∀ c ∈ l, rustIsWhitespace c = true) :
    l.foldl argStep ⟨a, [], none, false⟩ = ⟨a, [], none, false⟩ := by
  induction l with
  | nil => rfl
  | cons c rest ih =>
    have hc : rustIsWhitespace c = true := h c (List.mem_cons_self c rest)
    show List.foldl argStep (argStep ⟨a, [], none, false⟩ c) rest =
      ⟨a, [], none, false⟩
    rw [argStep_ws_fixed a c hc]
    exact ih (fun c' hc' => h c' (List.mem_cons_of_mem c hc'))

/-- `splitPipe` never returns an empty segment list. -/
theorem splitPipe_ne_nil (l : List Char) : splitPipe l ≠ [] := by
  cases l with
  | nil => simp [splitPipe]
  | cons c rest =>
    unfold splitPipe
    by_cases h : c = '|'
    · simp [h]
    · rw [if_neg h]
      rcases hs : splitPipe rest with _ | ⟨s, ss⟩ <;> simp

/-- Splitting at a leading `|`. -/
theorem splitPipe_cons_bar (rest : List Char) :
    splitPipe ('|' :: rest) = [] :: splitPipe rest := by
  simp [splitPipe]

/-- Splitting when the head character is not `|`. -/
theorem splitPipe_cons_other (c : Char) (rest : List Char) (h : c ≠ '|')
    (s : List Char) (ss : List (List Char)) (hs : splitPipe rest = s :: ss) :
    splitPipe (c :: rest) = (c :: s) :: ss := by
  simp [splitPipe, h, hs]

/-- C3 (counterexample): on the input `echo 'a|b'` the `|` sits inside a
single-quoted region, yet `run_command`'s split (a plain `split('|')`)
produces two stages, so the claim that a quoted `|` never separates stages
is false. -/
theorem quoted_pipe_still_splits :
    pipeSegments "echo 'a|b'" = ["echo 'a", "b'"] ∧
      (pipeSegments "echo 'a|b'").length ≠ 1 := by
  constructor <;> decide

/-- C3 (amended): the pipeline split is a plain byte-level split on `|`
with no quote awareness: every `|`, quoted or not, separates segments — no
segment contains `|`, and rejoining the segments with `|` restores the raw
line exactly. -/
theorem split_ignores_quotes (l : List Char) :
    joinPipe (splitPipe l) = l ∧ (splitPipe l).all noPipe = true := by
  induction l with
  | nil => exact ⟨rfl, rfl⟩
  | cons c rest ih =>
    by_cases h : c = '|'
    · subst h
      rw [splitPipe_cons_bar]
      rcases hs : splitPipe rest with _ | ⟨s, ss⟩
      · exact absurd hs (splitPipe_ne_nil rest)
      · rw [hs] at ih
        constructor
        · show joinPipe ([] :: s :: ss) = '|' :: rest
          show [] ++ '|' :: joinPipe (s :: ss) = '|' :: rest
          rw [List.nil_append, ih.1]
        · show (([] : List Char) :: s :: ss).all noPipe = true
          simp only [List.all_cons, Bool.and_eq_true]
          exact ⟨rfl, by simpa [List.all_cons] using ih.2⟩
    · rcases hs : splitPipe rest with _ | ⟨s, ss⟩
      · exact absurd hs (splitPipe_ne_nil rest)
      · rw [hs] at ih
        rw [splitPipe_cons_other c rest h s ss hs]
        obtain ⟨ih1, ih2⟩ := ih
        constructor
        · rcases ss with _ | ⟨s2, ss2⟩
          · have hsr : s = rest := ih1
            show (c :: s) = c :: rest
            rw [hsr]
          · have ih1' : s ++ '|' :: joinPipe (s2 :: ss2) = rest := ih1
            show (c :: s) ++ '|' :: joinPipe (s2 :: ss2) = c :: rest
            rw [List.cons_append, ih1']
        · simp only [List.all_cons, Bool.and_eq_true] at ih2 ⊢
          refine ⟨?_, ih2.2⟩
          show noPipe (c :: s) = true
          unfold noPipe
          rw [if_neg h]
          exact ih2.1

/-- C7 (counterexample): the input consisting solely of `""` should,
according to the claim, emit one empty Word (a quoted fragment occurred for
it); `arg_parse` has no quoted-fragment flag and drops it, returning no
words at all. -/
theorem empty_quoted_word_dropped :
    arg_parse "\"\"" = [] ∧ arg_parse "\"\"" ≠ [""] ∧
      arg_parse "echo \"\" x" = ["echo", "x"] := by
  refine ⟨by decide, by decide, by decide⟩

/-- C7 (amended): `arg_parse` emits a word iff it is non-empty — empty
words produced by `\x22\x22` or `''` are dropped, and a line of pure
whitespace emits no word. -/
theorem emitted_words_nonempty (line : String) :
    "" ∉ arg_parse line ∧
      (line.data.all rustIsWhitespace = true → arg_parse line = []) := by
  constructor
  · intro hmem
    simp only [arg_parse] at hmem
    by_cases hc : (line.data.foldl argStep ⟨[], [], none, false⟩).current ≠ []
    · rw [if_pos hc] at hmem
      rcases List.mem_append.mp hmem with h | h
      · exact foldl_args_nonempty line.data ⟨[], [], none, false⟩
          (by intro w hw; simp at hw) "" h rfl
      · exact mk_ne_empty_of_ne_nil _ hc (List.mem_singleton.mp h).symm
    · rw [if_neg hc] at hmem
      exact foldl_args_nonempty line.data ⟨[], [], none, false⟩
        (by intro w hw; simp at hw) "" hmem rfl
  · intro hws
    have hall : ∀ c ∈ line.data, rustIsWhitespace c = true :=
      fun c hc => List.all_eq_true.mp hws c hc
    simp only [arg_parse, foldl_ws_fixed line.data [] hall]
    decide

/-- C7 (witness): on a concrete line holding an empty quoted word between
blanks, no empty word is emitted, and a line of blanks lexes to nothing. -/
theorem emitted_words_nonempty_inst :
    "" ∉ arg_parse " \"\" " ∧ arg_parse "  " = [] :=
  ⟨(emitted_words_nonempty " \"\" ").1,
   (emitted_words_nonempty "  ").2 (by decide)⟩

/-- C9: in a double-quoted region a pending backslash appends only the next
character when that character is `\x22` or `\x5c`, and otherwise appends the
backslash followed by the character; consequently `echo "a\"b"` lexes so
that the stage prints exactly `a"b` to stdout. -/
theorem dquote_backslash_escape (st : LexState) (c : Char)
    (hq : st.quote = some '"') (he : st.escaped = true) (env : Env)
    (s : ShellState) :
    argStep st c =
      (if c = '"' ∨ c = '\\' then
        { st with current := st.current ++ [c], escaped := false }
      else
        { st with current := st.current ++ ['\\', c], escaped := false }) ∧
      run_command env s "echo \"a\\\"b\"" = .normal s [Event.out "a\"b"] := by
  constructor
  · simp [argStep, he, hq]
  · rfl

/-- C9 (witness): the escape rule at the concrete state `a` inside double
quotes with a pending backslash, on the character `x`, together with the
concrete `echo "a\"b"` evaluation. -/
theorem dquote_backslash_escape_inst :
    argStep ⟨[], ['a'], some '"', true⟩ 'x' =
      (if 'x' = '"' ∨ 'x' = '\\' then
        { args := [], current := ['a', 'x'], quote := some '"',
          escaped := false }
      else
        { args := [], current := ['a', '\\', 'x'], quote := some '"',
          escaped := false }) ∧
      run_command env0 st0 "echo \"a\\\"b\"" =
        .normal st0 [Event.out "a\"b"] :=
  dquote_backslash_escape ⟨[], ['a'], some '"', true⟩ 'x' rfl rfl env0 st0

/-- C1: the redirection scan of `run_command` tests a word only against
`>>`, `1>>` and `2>>` (src/main.rs line 359); the two-character truncate
forms `>`, `1>`, `2>` are never recognized, so `echo hi > /tmp/t` keeps
`>` and `/tmp/t` as ordinary words, sets no stdout redirection, and the
stage prints `hi > /tmp/t` to the terminal instead of writing `hi` to the
file. -/
theorem truncate_redirect_not_recognized :
    scanArgs ["echo", "hi", ">", "/tmp/t"] initSeg =
      ⟨["echo", "hi", ">", "/tmp/t"], none, false, none, false, false⟩ ∧
      run_command env0 st0 "echo hi > /tmp/t" =
        .normal st0 [Event.out "hi > /tmp/t"] := by
  refine ⟨by decide, by decide⟩

/-- C2: `run_command` computes `command_args` with operators and targets
removed, but then passes the unfiltered `raw_args` to `run_single_command`
(src/main.rs line 399): for `echo hi 1>> /tmp/f` the scan correctly leaves
`command_args = [echo, hi]`, yet the dispatched echo receives the operator
and target as arguments and writes `hi 1>> /tmp/f` into the file. -/
theorem raw_args_reach_dispatch :
    (scanArgs ["echo", "hi", "1>>", "/tmp/f"] initSeg).command_args =
      ["echo", "hi"] ∧
      run_command env0 st0 "echo hi 1>> /tmp/f" =
        .normal st0 [Event.writeFile "/tmp/f" true "hi 1>> /tmp/f"] := by
  refine ⟨by decide, by decide⟩

/-- C4 (counterexample): with `nosuch` unresolvable and `cat` resolvable,
`run_command` on `nosuch | cat` emits `nosuch: command not found` with
`println!` — on standard output, not standard error — and the following
stage is spawned with inherited stdin (no pipe), not with an empty input
stream. -/
theorem not_found_message_on_stdout :
    run_command envCat st0 "nosuch | cat" =
      .normal st0
        [Event.out "nosuch: command not found",
         Event.spawn "cat" [] false .inherit .inherit,
         Event.wait "cat"] := by
  decide

/-- C4 (amended): whenever path resolution fails for a stage's command
name, the executor prints `<name>: command not found` to standard output
(not standard error), aborts that stage, and hands no pipe to the next
stage, whose stdin is then the shell's inherited stdin. -/
theorem resolve_failure_stdout_no_pipe (env : Env) (cmd : String)
    (args : List String) (sp : Bool) (soF : Option String) (soA : Bool)
    (seF : Option String) (seA : Bool) (cp : Bool)
    (h : env.resolve cmd = none) :
    execute_piped env cmd args sp soF soA seF seA cp =
      (false, [Event.out (cmd ++ ": command not found")]) := by
  simp [execute_piped, h]

/-- C4 (witness): the amended statement at the environment where nothing
resolves. -/
theorem resolve_failure_stdout_no_pipe_inst :
    execute_piped env0 "nosuch" [] false none false none false true =
      (false, [Event.out "nosuch: command not found"]) :=
  resolve_failure_stdout_no_pipe env0 "nosuch" [] false none false none
    false true rfl

/-- C5 (counterexample): `exit 7 | cat` is a two-stage pipeline, yet the
`exit` stage runs with no incoming pipe handle (`stdin_pipe` is `None` for
the first stage), so `std::process::exit(7)` fires and the shell process
terminates — the claim that `exit` in a multi-stage pipeline never mutates
shell state is false, and no diagnostic is produced either. -/
theorem exit_first_in_pipeline_exits :
    run_command envCat st0 "exit 7 | cat" = .exited 7 [] := by
  rfl

/-- C5 (amended): `exit` and `cd` in a pipeline are skipped only when the
preceding stage actually handed over a pipe; in that case they mutate
nothing, terminate nothing, and — contrary to the claim — produce no
diagnostic and no output at all; in any stage whose incoming pipe handle is
`None` (the first stage, or after a stage that produced no pipe) they
execute with full effect. -/
theorem piped_exit_cd_silent_noop (env : Env) (st : ShellState)
    (cmd : String) (rest : List String) (soF : Option String) (soA : Bool)
    (seF : Option String) (seA : Bool) (il : Bool)
    (h : cmd = "exit" ∨ cmd = "cd") :
    run_single_command env st (cmd :: rest) true soF soA seF seA il =
      .normal false st [] := by
  rcases h with h | h <;> subst h <;> rfl

/-- C5 (witness): a piped `exit 7` stage is a silent no-op. -/
theorem piped_exit_cd_silent_noop_inst :
    run_single_command env0 st0 ["exit", "7"] true none false none false
      true = .normal false st0 [] :=
  piped_exit_cd_silent_noop env0 st0 "exit" ["7"] none false none false
    true (Or.inl rfl)

/-- C10: invoking the `type` built-in with no argument at all writes
nothing to stdout, stderr or any redirection file, raises no error, and
leaves the shell state untouched: the evaluation of the bare line `type`
produces an empty event trace. -/
theorem type_without_argument_silent (env : Env) (st : ShellState) :
    run_command env st "type" = .normal st [] := by
  rfl

/-- C6: the last stage of a pipeline is dispatched with `create_pipe`
false, and because `stdin_pipe.take()` always leaves `None` in the local
option, the `!create_pipe && stdin_pipe.is_none()` test of `execute_piped`
always fires for it: whenever the terminal stage is an external command
that resolves, opens its redirection files, and spawns, the very last
event of the stage — before control returns toward the prompt — is the
blocking wait on that child; this holds for any incoming-pipe state, so
for multi-stage pipelines as well as single commands. -/
theorem last_stage_wait_before_return (env : Env) (st : ShellState)
    (cmd : String) (args : List String) (sp : Bool) (soF : Option String)
    (soA : Bool) (seF : Option String) (seA : Bool)
    (h1 : cmd ≠ "echo") (h2 : cmd ≠ "pwd") (h3 : cmd ≠ "type")
    (h4 : cmd ≠ "exit") (h5 : cmd ≠ "cd")
    (hres : (env.resolve cmd).isSome = true)
    (hspawn : env.spawnOk cmd = true)
    (hso : ∀ f, soF = some f → env.openOk f = true)
    (hse : ∀ f, seF = some f → env.openOk f = true) :
    (run_single_command env st (cmd :: args) sp soF soA seF seA
      true).trace.getLast? = some (Event.wait cmd) := by
  have hnone : (env.resolve cmd).isNone = false := by
    rcases hr : env.resolve cmd with _ | p
    · rw [hr] at hres; simp at hres
    · rfl
  simp only [run_single_command, List.headD_cons, List.tail_cons]
  rw [if_neg (by simp [h1, h2, h3]), if_neg (by simp [h4, h5])]
  rcases soF with _ | f <;> rcases seF with _ | g
  · simp [execute_piped, hnone, hspawn, CmdResult.trace]
  · simp [execute_piped, hnone, hspawn, CmdResult.trace, hse g rfl]
  · simp [execute_piped, hnone, hspawn, CmdResult.trace, hso f rfl]
  · simp [execute_piped, hnone, hspawn, CmdResult.trace, hso f rfl,
      hse g rfl]

/-- C6 (witness): a single `ls` stage at last position in an environment
where `ls` resolves and spawns ends its trace with the wait on `ls`. -/
theorem last_stage_wait_before_return_inst :
    (run_single_command envCat st0 ["ls"] false none false none false
      true).trace.getLast? = some (Event.wait "ls") :=
  last_stage_wait_before_return envCat st0 "ls" [] false none false none
    false (by decide) (by decide) (by decide) (by decide) (by decide)
    (by decide) (by decide) (fun f hf => by cases hf) (fun f hf => by cases hf)

/-- C8 (counterexample): the line `1>>` has a recognized operator with no
following target, a parse error; `run_command` reports it with `println!`
(`error in parsing amk`) on standard output, not on standard error as the
claim states. -/
theorem parse_error_message_on_stdout :
    run_command env0 st0 "1>>" =
      .normal st0 [Event.out "error in parsing amk"] := by
  rfl

/-- C8 (amended): a detected parse error — a missing target after one of
the recognized operators `>>`, `1>>`, `2>>`, or a stage whose words are
non-empty but whose argv is empty after operator removal — is reported as
the single diagnostic line `error in parsing amk` on standard output, the
remaining stages are abandoned, and control returns toward the prompt with
the shell state unchanged; a stage lexing to no words at all instead
aborts silently. -/
theorem parse_error_single_stdout_line_aborts (env : Env) (st : ShellState)
    (prevOut : Bool) (seg : String) (rest : List String)
    (h1 : arg_parse (rustTrimStr seg) ≠ [])
    (h2 : (scanArgs (arg_parse (rustTrimStr seg)) initSeg).error_in_parsing
        = true ∨
      (scanArgs (arg_parse (rustTrimStr seg)) initSeg).command_args = []) :
    run_segments env st prevOut (seg :: rest) =
      .normal st [Event.out "error in parsing amk"] := by
  rcases h2 with h2 | h2 <;> simp [run_segments, h1, h2]

/-- C8 (witness): the erroring segment `1>>` followed by a further stage
aborts the remaining pipeline with the single stdout diagnostic. -/
theorem parse_error_single_stdout_line_aborts_inst :
    run_segments env0 st0 false ["1>>", "cat"] =
      .normal st0 [Event.out "error in parsing amk"] :=
  parse_error_single_stdout_line_aborts env0 st0 false "1>>" ["cat"]
    (by decide) (Or.inl (by decide))
